import Mathlib

/-!
Verification development for the sitemap-url-tester repository.

The development shallowly embeds the two core modules:

* `checker.py` — the concurrent URL checker (`_classify_error`,
  `_detect_soft_404`, `_build_redirect_chain`, `_get_first_status`,
  `_do_request`, `_check_one`, `_run`).  Network I/O is modelled by an
  oracle `net : Nat → NetCall` giving, for the n-th HTTP request issued
  on behalf of one URL, either a response or a transport exception,
  together with the elapsed time of that request.  Per-URL checking in
  `_run` is modelled by a family of such oracles, one per URL, because
  each URL's task issues its own independent sequence of requests.
  Elapsed times are rationals (milliseconds); an attempt's elapsed time
  is the sum of the durations of the requests it made, matching the
  `perf_counter` bracket around `_do_request` in the source.

* `sitemap.py` — the recursive sitemap resolver (`parse_sitemap`,
  `_strip_ns`).  Fetching + gzip decompression + tolerant XML parsing of
  one sitemap URL is modelled by a world `w : String → Option XmlNode`
  (`none` = fetch or parse failure, which the source treats identically:
  the node contributes no URLs).  `parse_sitemap` returns, next to the
  URL list, the final visited set and the ordered trace of fetch
  attempts (the URLs passed to the network), so that fetch-at-most-once
  properties can be stated; the source performs those fetches via
  `httpx.get` at the same program points.

String primitives used by the sources (`str.strip`, `str.lower`,
slicing, substring test, `"}" in tag` / `split("}", 1)`) are embedded as
executable functions on `String.data` so that concrete scenarios
evaluate inside the kernel.
-/

/-! ## String primitives -/

/-- Substring occurrence: is `pat` a prefix of `hay`?  (Helper for `strContainsL`.) -/
def isSubAt : List Char → List Char → Bool
  | [], _ => true
  | _ :: _, [] => false
  | p :: ps, h :: hs => p == h && isSubAt ps hs

/-- Does `pat` occur inside `hay` (as a contiguous sublist)?  Models Python `pat in hay`. -/
def strContainsL (pat : List Char) : List Char → Bool
  | [] => pat.isEmpty
  | h :: hs => isSubAt pat (h :: hs) || strContainsL pat hs

/-- Python `pat in hay` on strings. -/
def strContains (hay pat : String) : Bool :=
  strContainsL pat.data hay.data

/-- Lower-case a string character by character.  Models Python `str.lower()`
for the ASCII strings the checker compares. -/
def lowerStr (s : String) : String :=
  ⟨s.data.map Char.toLower⟩

/-- First `n` characters of a string.  Models Python slicing `s[:n]`. -/
def takeStr (n : Nat) (s : String) : String :=
  ⟨s.data.take n⟩

/-- Drop leading whitespace characters. -/
def dropWS : List Char → List Char
  | [] => []
  | c :: rest => if c.isWhitespace then dropWS rest else c :: rest

/-- Python `str.strip()`: remove leading and trailing whitespace. -/
def pyStrip (s : String) : String :=
  ⟨((dropWS s.data).reverse |> dropWS).reverse⟩

/-! ## checker.py — data model -/

/-- A transport-level exception, as far as `_classify_error` inspects it:
`name` models `type(exc).__name__` and `msg` models `str(exc)`. -/
structure Exn where
  name : String
  msg : String
deriving DecidableEq, Repr

/-- An HTTP response as `_check_one` consumes it: final status code, final
URL, the status codes of the redirect history (in order), the method of the
request that produced it (`resp.request.method`), the `content-type` header
and the decoded body text. -/
structure Response where
  status_code : Nat
  url : String
  history : List Nat
  method : String
  contentType : String
  bodyText : String
deriving DecidableEq, Repr

/-- Outcome of one HTTP request issued through the shared client: either a
response or a raised transport exception, plus the elapsed time (ms) that
request contributed to the surrounding `perf_counter` bracket. -/
structure NetCall where
  outcome : Except Exn Response
  dur : ℚ
deriving Repr

/-- One outcome record per input URL; mirrors the `CheckResult` dataclass of
`checker.py` field by field (default values included). -/
structure CheckResult where
  input_url : String
  first_status_code : String := ""
  final_status_code : String := ""
  final_url : String := ""
  response_time_ms : ℚ := 0
  redirect_count : Nat := 0
  redirect_chain : String := ""
  method_used : String := ""
  user_agent_used : String := ""
  soft_404 : Bool := false
  error : String := ""
  alt_status_code : String := ""
  alt_user_agent_used : String := ""
deriving DecidableEq, Repr

/-! ## checker.py — helpers -/

/-- Soft-404 phrase markers (`_SOFT_404_PATTERNS`), checked against the first
8000 characters of the body. -/
def soft404Patterns : List String :=
  ["page not found",
   "404 not found",
   "404 error",
   "not found</title>",
   "<title>404",
   "does not exist",
   "no longer available",
   "page doesn\x27t exist",
   "page does not exist",
   "we couldn\x27t find",
   "we can\x27t find"]

/-- Embeds `_classify_error`: map an exception to a human-readable error
label by a first-match cascade over name and lower-cased message. -/
def classify_error (exc : Exn) : String :=
  if strContains (lowerStr exc.name) "ssl" || strContains (lowerStr exc.msg) "ssl" then
    "SSL_ERROR"
  else if strContains (lowerStr exc.name) "timeout" || strContains (lowerStr exc.msg) "timeout" then
    "TIMEOUT"
  else if strContains (lowerStr exc.msg) "dns"
      || strContains (lowerStr exc.msg) "name or service not known"
      || strContains (lowerStr exc.msg) "nodename nor servname" then
    "DNS_ERROR"
  else if strContains (lowerStr exc.name) "connect" || strContains (lowerStr exc.msg) "connect" then
    "CONNECT_ERROR"
  else if strContains (lowerStr exc.name) "read" then
    "READ_ERROR"
  else
    "ERROR (" ++ exc.name ++ ")"

/-- Embeds `_detect_soft_404`: a 200 response looks like a soft-404 when its
content type is HTML-like and the (lower-cased) body snippet contains one of
the fixed markers. -/
def detect_soft_404 (content_type body_snippet : String) : Bool :=
  if strContains content_type "text/html" then
    soft404Patterns.any (fun pat => strContains (lowerStr body_snippet) pat)
  else
    false

/-- Python `"→".join(codes)`. -/
def joinArrow : List String → String
  | [] => ""
  | [x] => x
  | x :: xs => x ++ "→" ++ joinArrow xs

/-- Embeds `_build_redirect_chain`: the status codes of the redirect history
followed by the final status, arrow-joined; just the final status when there
was no redirect. -/
def build_redirect_chain (resp : Response) : String :=
  match resp.history with
  | [] => toString resp.status_code
  | _ :: _ => joinArrow (resp.history.map (fun c => toString c) ++ [toString resp.status_code])

/-- Embeds `_get_first_status`: status of the first response in the redirect
history, or of the response itself when there was no redirect. -/
def get_first_status (resp : Response) : String :=
  match resp.history with
  | [] => toString resp.status_code
  | h :: _ => toString h

/-! ## checker.py — request and per-URL check -/

/-- Embeds `_do_request` against the oracle `net`, starting at request index
`k`.  With `head_then_get` a HEAD request is sent first and a GET issued
instead when the HEAD status is ≥ 400; otherwise a single GET is sent.
Returns the outcome, the elapsed time of the whole bracket (sum of the
issued requests' durations) and the next free request index. -/
def do_request (net : Nat → NetCall) (k : Nat) (head_then_get : Bool) :
    Except Exn Response × ℚ × Nat :=
  if head_then_get then
    let c1 := net k
    match c1.outcome with
    | .error e => (.error e, c1.dur, k + 1)
    | .ok resp =>
        if resp.status_code ≥ 400 then
          let c2 := net (k + 1)
          match c2.outcome with
          | .error e => (.error e, c1.dur + c2.dur, k + 2)
          | .ok resp2 => (.ok resp2, c1.dur + c2.dur, k + 2)
        else (.ok resp, c1.dur, k + 1)
  else
    let c := net k
    (c.outcome, c.dur, k + 1)

/-- Embeds the success branch of `_check_one` (lines 183–220): populate the
result from the primary response, run soft-404 detection for 200 GETs, and
perform the best-effort Safari (alternate-identity) retry on 403/404,
promoting the alternate response's values when its status is < 400.  `k` is
the request index at which the alternate probe would start. -/
def process_success (net : Nat → NetCall) (k : Nat) (resp : Response) (elapsed : ℚ)
    (url lbl : String) (head_then_get safari_retry : Bool) : CheckResult :=
  let base : CheckResult := {
    input_url := url
    first_status_code := get_first_status resp
    final_status_code := toString resp.status_code
    final_url := resp.url
    response_time_ms := elapsed
    redirect_count := resp.history.length
    redirect_chain := build_redirect_chain resp
    method_used := resp.method
    user_agent_used := lbl
    soft_404 := resp.method == "GET" && resp.status_code == 200
      && detect_soft_404 resp.contentType (takeStr 8000 resp.bodyText)
    error := ""
    alt_status_code := ""
    alt_user_agent_used := "" }
  if safari_retry && (resp.status_code == 403 || resp.status_code == 404) then
    match (do_request net k head_then_get).1 with
    | .error _ => base
    | .ok alt =>
        let withAlt : CheckResult := { base with
          alt_status_code := toString alt.status_code
          alt_user_agent_used := "Safari macOS" }
        if alt.status_code < 400 then
          { withAlt with
            first_status_code := get_first_status alt
            final_status_code := toString alt.status_code
            final_url := alt.url
            redirect_count := alt.history.length
            redirect_chain := build_redirect_chain alt
            method_used := alt.method
            user_agent_used := "Safari macOS (retry)" }
        else withAlt
  else base

/-- Embeds the all-attempts-exhausted tail of `_check_one` (lines 229–235):
classify the last exception and carry the label in both the final-status and
error fields.  The `none` case mirrors `last_exc = None` (unreachable from
`check_one_run`, which always runs at least one attempt). -/
def exhaustedResult (url lbl : String) (lastExn : Option Exn) (lastElapsed : ℚ) : CheckResult :=
  let e := match lastExn with
    | some e => e
    | none => ⟨"NoneType", "None"⟩
  let label := classify_error e
  { input_url := url
    first_status_code := ""
    final_status_code := label
    final_url := ""
    response_time_ms := lastElapsed
    redirect_count := 0
    redirect_chain := ""
    method_used := ""
    user_agent_used := lbl
    soft_404 := false
    error := label
    alt_status_code := ""
    alt_user_agent_used := "" }

/-- Embeds the retry loop `for attempt in range(1 + retries)` of `_check_one`.
`k` is the next request index, `remaining` the attempts still allowed, `done`
the attempts already executed; the last exception and its attempt's elapsed
time are carried for the exhausted case.  Returns the result together with
the total number of attempts executed. -/
def attemptLoop (net : Nat → NetCall) (url lbl : String) (head_then_get safari_retry : Bool) :
    Nat → Nat → Nat → ℚ → Option Exn → CheckResult × Nat
  | _, 0, done, lastElapsed, lastExn => (exhaustedResult url lbl lastExn lastElapsed, done)
  | k, remaining + 1, done, _, _ =>
      let r := do_request net k head_then_get
      match r.1 with
      | .ok resp =>
          (process_success net r.2.2 resp r.2.1 url lbl head_then_get safari_retry, done + 1)
      | .error e =>
          attemptLoop net url lbl head_then_get safari_retry r.2.2 remaining (done + 1) r.2.1 (some e)

/-- Embeds `_check_one` for one URL, also reporting how many attempts ran.
The backoff sleep between attempts is timing-only and not modelled. -/
def check_one_run (net : Nat → NetCall) (url lbl : String) (head_then_get : Bool)
    (retries : Nat) (safari_retry : Bool) : CheckResult × Nat :=
  attemptLoop net url lbl head_then_get safari_retry 0 (1 + retries) 0 0 none

/-- The `CheckResult` `_check_one` returns for one URL. -/
def check_one (net : Nat → NetCall) (url lbl : String) (head_then_get : Bool)
    (retries : Nat) (safari_retry : Bool) : CheckResult :=
  (check_one_run net url lbl head_then_get retries safari_retry).1

/-- Embeds `_run` / `run_checks`: one task per input URL over a family of
per-URL request oracles; `asyncio.gather` returns the results in task
creation order, i.e. input order.  The UA label computed from `UA_PRESETS`
(in the repository's `headers.py`, outside `src/`) is abstracted as `lbl`;
it does not influence any checking decision.  The progress callback is
observational and the final `to_dict` conversion is field-preserving, so the
run is modelled as the list of `CheckResult`s. -/
def run_checks (nets : String → Nat → NetCall) (urls : List String) (lbl : String)
    (head_then_get : Bool) (retries : Nat) (safari_retry : Bool) : List CheckResult :=
  urls.map (fun u => check_one (nets u) u lbl head_then_get retries safari_retry)

/-! ## Specification-side vocabulary for the checker claims -/

/-- A 3-digit numeric HTTP status string: the decimal representation of a
number in 100..999. -/
def Is3DigitStatus (s : String) : Prop :=
  ∃ n : Nat, 100 ≤ n ∧ n ≤ 999 ∧ s = toString n

/-- The fixed error-kind taxonomy of §7 of the spec: the five transport
labels plus the generic label carrying an exception kind name. -/
def ErrorTaxonomy (s : String) : Prop :=
  s = "SSL_ERROR" ∨ s = "TIMEOUT" ∨ s = "DNS_ERROR" ∨ s = "CONNECT_ERROR" ∨
    s = "READ_ERROR" ∨ ∃ n : String, s = "ERROR (" ++ n ++ ")"

/-- First-match evaluation of an ordered rule cascade; `dflt` is the label
produced when no rule matches. -/
def firstMatch (rules : List ((Exn → Bool) × String)) (dflt : Exn → String) (exc : Exn) : String :=
  match rules with
  | [] => dflt exc
  | r :: rs => if r.1 exc then r.2 else firstMatch rs dflt exc

/-- SSL match condition of the cascade, as the source tests it. -/
def matchSSL (exc : Exn) : Bool :=
  strContains (lowerStr exc.name) "ssl" || strContains (lowerStr exc.msg) "ssl"

/-- Timeout match condition of the cascade, as the source tests it. -/
def matchTimeout (exc : Exn) : Bool :=
  strContains (lowerStr exc.name) "timeout" || strContains (lowerStr exc.msg) "timeout"

/-- DNS match condition of the cascade, as the source tests it. -/
def matchDNS (exc : Exn) : Bool :=
  strContains (lowerStr exc.msg) "dns"
    || strContains (lowerStr exc.msg) "name or service not known"
    || strContains (lowerStr exc.msg) "nodename nor servname"

/-- Connect match condition of the cascade, as the source tests it. -/
def matchConnect (exc : Exn) : Bool :=
  strContains (lowerStr exc.name) "connect" || strContains (lowerStr exc.msg) "connect"

/-- Read match condition of the cascade, as the source tests it. -/
def matchRead (exc : Exn) : Bool :=
  strContains (lowerStr exc.name) "read"

/-- The ordered cascade SSL → TIMEOUT → DNS → CONNECT → READ. -/
def cascadeRules : List ((Exn → Bool) × String) :=
  [(matchSSL, "SSL_ERROR"),
   (matchTimeout, "TIMEOUT"),
   (matchDNS, "DNS_ERROR"),
   (matchConnect, "CONNECT_ERROR"),
   (matchRead, "READ_ERROR")]

/-- Generic fallback label of the cascade. -/
def genericLabel (exc : Exn) : String :=
  "ERROR (" ++ exc.name ++ ")"

/-- Redirect-chain well-formedness: the chain is `redirect_count` codes
followed by the final status code, arrow-joined — i.e. exactly
`redirect_count + 1` arrow-separated segments whose last segment is the
final status code. -/
def ChainSpec (r : CheckResult) : Prop :=
  ∃ codes : List Nat, codes.length = r.redirect_count ∧
    r.redirect_chain = joinArrow (codes.map (fun c => toString c) ++ [r.final_status_code])


/-! ## sitemap.py — data model -/

/-- A parsed XML element as the resolver consumes it: tag name, text content
(`none` models lxml's `None`), and child elements in document order. -/
inductive XmlNode where
  | mk : String → Option String → List XmlNode → XmlNode

/-- Tag name of an element (`el.tag`). -/
def XmlNode.tag : XmlNode → String
  | .mk t _ _ => t

/-- Text content of an element (`el.text`). -/
def XmlNode.text : XmlNode → Option String
  | .mk _ x _ => x

/-- Child elements of an element, in document order. -/
def XmlNode.children : XmlNode → List XmlNode
  | .mk _ _ c => c

/-- Characters after the first closing brace, if any. -/
def afterBrace : List Char → Option (List Char)
  | [] => none
  | c :: cs => if c = '\x7d' then some cs else afterBrace cs

/-- Embeds `_strip_ns`: when the tag contains a closing brace, keep what
follows the first one (Python `tag.split(brace, 1)[1]`), else the tag. -/
def strip_ns (tag : String) : String :=
  match afterBrace tag.data with
  | some rest => ⟨rest⟩
  | none => tag

/-- Python truthiness of `el.text`: `None` and the empty string are falsy. -/
def textTruthy (el : XmlNode) : Bool :=
  match el.text with
  | some s => s != ""
  | none => false

/-- The stripped text of an element (`el.text.strip()`); only consumed under
`textTruthy`. -/
def locText (el : XmlNode) : String :=
  pyStrip (el.text.getD "")

/-- Maximum sitemap-index recursion depth (`_MAX_DEPTH = 3`). -/
def MAX_DEPTH : Nat := 3

/-- Input to `parse_sitemap`: raw bytes or a URL string.  For the bytes case
the byte-level pipeline (gzip sniffing/decompression, BOM stripping,
recovering XML parse) is collapsed into its outcome, `Option XmlNode`
(`none` when parsing raises or recovers no root, which yields an empty
result in the source). -/
inductive Source where
  | bytes : Option XmlNode → Source
  | url : String → Source

/-- The `seen_order`-guarded merge of `parse_sitemap`: append each element
of `new` to `acc` unless it is already present. -/
def mergeDedup (acc new : List String) : List String :=
  new.foldl (fun a u => if u ∈ a then a else a ++ [u]) acc

/-- First-occurrence deduplication — the canonical "no duplicates,
first-seen order" normal form of a sequence. -/
def dedupFirst (xs : List String) : List String :=
  mergeDedup [] xs


/-- The genuinely new items that `mergeDedup` would append to an accumulator
whose membership is described by `b`; proof-side normal form for reasoning
about nested dedup merges. -/
def fresh : List String → List String → List String
  | [], _ => []
  | x :: xs, b => if x ∈ b then fresh xs b else x :: fresh xs (b ++ [x])

/-- Inner loop of the `urlset` branch: walk the children of one `url`
element and append each truthy `loc` text not yet collected. -/
def locAppend : List XmlNode → List String → List String
  | [], acc => acc
  | child :: rest, acc =>
      if strip_ns child.tag = "loc" ∧ textTruthy child = true then
        locAppend rest (if locText child ∈ acc then acc else acc ++ [locText child])
      else locAppend rest acc

/-- Embeds the `urlset` branch of `parse_sitemap`: collect `loc` texts of
`url` children in document order, first occurrence only. -/
def urlsetCollect : List XmlNode → List String → List String
  | [], acc => acc
  | el :: rest, acc =>
      if strip_ns el.tag = "url" then urlsetCollect rest (locAppend el.children acc)
      else urlsetCollect rest acc

/-- Document-order sequence of the truthy `loc` texts of a children list
(no deduplication). -/
def locTexts : List XmlNode → List String
  | [] => []
  | child :: rest =>
      if strip_ns child.tag = "loc" ∧ textTruthy child = true then
        locText child :: locTexts rest
      else locTexts rest

/-- Raw (duplicate-keeping) counterpart of the `urlset` branch. -/
def locsRaw : List XmlNode → List String
  | [] => []
  | el :: rest =>
      if strip_ns el.tag = "url" then locTexts el.children ++ locsRaw rest
      else locsRaw rest


/-- Invariant of one resolver step with initial visited set `v`: the visited
set only grows, the fetch trace has no repeats, and every fetched URL was
unvisited before the step and is visited after it. -/
def VisitInv (v : List String) (r : List String × List String × List String) : Prop :=
  (∀ x, x ∈ v → x ∈ r.2.1) ∧ r.2.2.Nodup ∧
    (∀ u, u ∈ r.2.2 → u ∉ v ∧ u ∈ r.2.1)

/-! ## sitemap.py — the recursive resolver

`parse_sitemap` returns `(urls, visited, fetches)`: the resolved URL list,
the final visited set (a list used as a set) and — as instrumentation of the
`httpx.get` call sites — the ordered trace of sitemap URLs whose fetch was
attempted.  The trace has no influence on the other two components. -/

mutual

/-- Embeds `parse_sitemap` of sitemap.py over the fetch world `w`.  A URL
source is stripped, rejected immediately when already visited, otherwise
marked visited and fetched; a failed fetch or parse (`w url = none`)
contributes no URLs. -/
def parse_sitemap (w : String → Option XmlNode) (source : Source)
    (visited : List String) (depth : Nat) :
    List String × List String × List String :=
  match source with
  | .bytes none => ([], visited, [])
  | .bytes (some root) => dispatch w root visited depth
  | .url u =>
      let url := pyStrip u
      if url ∈ visited then ([], visited, [])
      else
        match w url with
        | none => ([], url :: visited, [url])
        | some root =>
            let r := dispatch w root (url :: visited) depth
            (r.1, r.2.1, url :: r.2.2)
termination_by (4 - depth, 3, 0)

/-- Dispatch on the root element, namespaces stripped: `sitemapindex`
recurses into children, `urlset` collects `loc` entries, and any other root
yields an empty result. -/
def dispatch (w : String → Option XmlNode) (root : XmlNode)
    (visited : List String) (depth : Nat) :
    List String × List String × List String :=
  if strip_ns root.tag = "sitemapindex" then
    indexLoop w root.children visited depth []
  else if strip_ns root.tag = "urlset" then
    (urlsetCollect root.children [], visited, [])
  else ([], visited, [])
termination_by (4 - depth, 2, 0)

/-- Loop over the children of a `sitemapindex` root: each `sitemap` child
contributes the resolutions of its `loc` entries. -/
def indexLoop (w : String → Option XmlNode) (cs : List XmlNode)
    (visited : List String) (depth : Nat) (acc : List String) :
    List String × List String × List String :=
  match cs with
  | [] => (acc, visited, [])
  | c :: rest =>
      if strip_ns c.tag = "sitemap" then
        let r1 := locLoop w c.children visited depth acc
        let r2 := indexLoop w rest r1.2.1 depth r1.1
        (r2.1, r2.2.1, r1.2.2 ++ r2.2.2)
      else indexLoop w rest visited depth acc
termination_by (4 - depth, 1, cs.length)

/-- Loop over the children of one `sitemap` element: a truthy `loc` child is
resolved recursively only when `depth + 1` is within the depth bound and the
stripped location is not in the visited set; its URLs are merged into the
accumulator with first-occurrence dedup. -/
def locLoop (w : String → Option XmlNode) (ls : List XmlNode)
    (visited : List String) (depth : Nat) (acc : List String) :
    List String × List String × List String :=
  match ls with
  | [] => (acc, visited, [])
  | l :: rest =>
      if strip_ns l.tag = "loc" ∧ textTruthy l = true then
        if h : depth + 1 ≤ MAX_DEPTH ∧ locText l ∉ visited then
          let rc := parse_sitemap w (.url (locText l)) visited (depth + 1)
          let rr := locLoop w rest rc.2.1 depth (mergeDedup acc rc.1)
          (rr.1, rr.2.1, rc.2.2 ++ rr.2.2)
        else locLoop w rest visited depth acc
      else locLoop w rest visited depth acc
termination_by (4 - depth, 0, ls.length)
decreasing_by
  · obtain ⟨h1, -⟩ := h
    simp only [MAX_DEPTH] at h1
    simp_wf
    left
    omega
  · simp_wf
    right
    right
    omega
  · simp_wf
    right
    right
    omega
  · simp_wf
    right
    right
    omega

end

/-! ## sitemap.py — raw traversal specification -/

mutual

/-- Raw traversal sequence of `parse_sitemap`: identical control flow
(same visited-set and depth decisions, same fetch trace) but collecting
every encountered `loc` text in depth-first document order without any
deduplication.  It is the specification of "first-seen order of the
depth-first, document-order traversal". -/
def rawParse (w : String → Option XmlNode) (source : Source)
    (visited : List String) (depth : Nat) :
    List String × List String × List String :=
  match source with
  | .bytes none => ([], visited, [])
  | .bytes (some root) => rawDispatch w root visited depth
  | .url u =>
      let url := pyStrip u
      if url ∈ visited then ([], visited, [])
      else
        match w url with
        | none => ([], url :: visited, [url])
        | some root =>
            let r := rawDispatch w root (url :: visited) depth
            (r.1, r.2.1, url :: r.2.2)
termination_by (4 - depth, 3, 0)

/-- Raw counterpart of `dispatch`. -/
def rawDispatch (w : String → Option XmlNode) (root : XmlNode)
    (visited : List String) (depth : Nat) :
    List String × List String × List String :=
  if strip_ns root.tag = "sitemapindex" then
    rawIndexLoop w root.children visited depth
  else if strip_ns root.tag = "urlset" then
    (locsRaw root.children, visited, [])
  else ([], visited, [])
termination_by (4 - depth, 2, 0)

/-- Raw counterpart of `indexLoop`. -/
def rawIndexLoop (w : String → Option XmlNode) (cs : List XmlNode)
    (visited : List String) (depth : Nat) :
    List String × List String × List String :=
  match cs with
  | [] => ([], visited, [])
  | c :: rest =>
      if strip_ns c.tag = "sitemap" then
        let r1 := rawLocLoop w c.children visited depth
        let r2 := rawIndexLoop w rest r1.2.1 depth
        (r1.1 ++ r2.1, r2.2.1, r1.2.2 ++ r2.2.2)
      else rawIndexLoop w rest visited depth
termination_by (4 - depth, 1, cs.length)

/-- Raw counterpart of `locLoop`. -/
def rawLocLoop (w : String → Option XmlNode) (ls : List XmlNode)
    (visited : List String) (depth : Nat) :
    List String × List String × List String :=
  match ls with
  | [] => ([], visited, [])
  | l :: rest =>
      if strip_ns l.tag = "loc" ∧ textTruthy l = true then
        if h : depth + 1 ≤ MAX_DEPTH ∧ locText l ∉ visited then
          let rc := rawParse w (.url (locText l)) visited (depth + 1)
          let rr := rawLocLoop w rest rc.2.1 depth
          (rc.1 ++ rr.1, rr.2.1, rc.2.2 ++ rr.2.2)
        else rawLocLoop w rest visited depth
      else rawLocLoop w rest visited depth
termination_by (4 - depth, 0, ls.length)
decreasing_by
  · obtain ⟨h1, -⟩ := h
    simp only [MAX_DEPTH] at h1
    simp_wf
    left
    omega
  · simp_wf
    right
    right
    omega
  · simp_wf
    right
    right
    omega
  · simp_wf
    right
    right
    omega

end

/-! ## Concrete scenario inputs used by witnesses and counterexamples -/

/-- Primary response of the alternate-identity scenario: a GET that ends in
404 with an HTML error page. -/
def c2PrimaryResp : Response :=
  ⟨404, "https://example.com/x", [], "GET", "text/html", "page not found"⟩

/-- Alternate-identity response of the same scenario: a GET that ends in 200
with an HTML body that contains a soft-404 marker. -/
def c2AltResp : Response :=
  ⟨200, "https://example.com/x", [], "GET", "text/html; charset=utf-8", "sorry, page not found"⟩

/-- Oracle for the alternate-identity scenario: the primary probe takes 5 ms
and yields `c2PrimaryResp`; the Safari retry takes 7 ms and yields
`c2AltResp`. -/
def altNet : Nat → NetCall := fun k =>
  if k = 0 then ⟨.ok c2PrimaryResp, 5⟩ else ⟨.ok c2AltResp, 7⟩

/-- Oracle on which every request raises a read timeout after 1 ms. -/
def timeoutNet : Nat → NetCall := fun _ =>
  ⟨.error ⟨"ReadTimeout", "timed out"⟩, 1⟩

/-- Oracle on which every request succeeds with a plain 200 GET response. -/
def okNet : Nat → NetCall := fun _ =>
  ⟨.ok ⟨200, "https://example.com/", [], "GET", "", ""⟩, 1⟩


/-- Oracle on which every request succeeds with a 200 GET whose HTML body
contains a soft-404 marker. -/
def softNet : Nat → NetCall := fun _ =>
  ⟨.ok ⟨200, "https://example.com/gone", [], "GET", "text/html", "page not found"⟩, 1⟩

/-- Per-URL oracle family where every URL behaves like `okNet`. -/
def okNets : String → Nat → NetCall := fun _ => okNet


/-- Scenario A document: a urlset with three unique loc entries and one
duplicate, in document order a, b, c, a. -/
def scenarioA : XmlNode :=
  .mk "urlset" none
    [.mk "url" none [.mk "loc" (some "https://e.example/a") []],
     .mk "url" none [.mk "loc" (some "https://e.example/b") []],
     .mk "url" none [.mk "loc" (some "https://e.example/c") []],
     .mk "url" none [.mk "loc" (some "https://e.example/a") []]]

/-- A sitemap-index document whose single child sitemap location points back
at the index itself. -/
def cycDoc : XmlNode :=
  .mk "sitemapindex" none
    [.mk "sitemap" none [.mk "loc" (some "https://a.example/s.xml") []]]

/-- World in which the self-referencing index lives at its own location. -/
def cycWorld : String → Option XmlNode := fun s =>
  if s = "https://a.example/s.xml" then some cycDoc else none

/-! ## Helper lemmas for the checker claims -/

set_option maxRecDepth 10000 in
lemma repr_ne_empty_lt1000 : ∀ n : Fin 1000, 100 ≤ n.val → Nat.repr n.val ≠ "" := by decide

lemma toString_nat_ne_empty {n : Nat} (h1 : 100 ≤ n) (h2 : n ≤ 999) : toString n ≠ "" := by
  have h := repr_ne_empty_lt1000 ⟨n, by omega⟩ h1
  exact h

lemma classify_error_taxonomy (exc : Exn) : ErrorTaxonomy (classify_error exc) := by
  unfold classify_error ErrorTaxonomy
  split_ifs
  · exact Or.inl rfl
  · exact Or.inr (Or.inl rfl)
  · exact Or.inr (Or.inr (Or.inl rfl))
  · exact Or.inr (Or.inr (Or.inr (Or.inl rfl)))
  · exact Or.inr (Or.inr (Or.inr (Or.inr (Or.inl rfl))))
  · exact Or.inr (Or.inr (Or.inr (Or.inr (Or.inr ⟨exc.name, rfl⟩))))

lemma errorTaxonomy_ne_empty {s : String} (h : ErrorTaxonomy s) : s ≠ "" := by
  rcases h with h | h | h | h | h | ⟨n, h⟩ <;> subst h <;> try decide
  intro hc
  have hd := congrArg String.data hc
  simp [String.data_append] at hd

lemma classify_error_ne_empty (exc : Exn) : classify_error exc ≠ "" :=
  errorTaxonomy_ne_empty (classify_error_taxonomy exc)

lemma do_request_err {net : Nat → NetCall} {k : Nat} {e : Exn} (htg : Bool)
    (h : (net k).outcome = .error e) :
    do_request net k htg = (.error e, (net k).dur, k + 1) := by
  cases htg <;> simp [do_request, h]

lemma do_request_ok_src {net : Nat → NetCall} {k : Nat} {r : Response} {htg : Bool}
    (h : (do_request net k htg).1 = .ok r) :
    ∃ k0, (net k0).outcome = .ok r := by
  cases htg with
  | false =>
      simp only [do_request, Bool.false_eq_true, if_false] at h
      exact ⟨k, h⟩
  | true =>
      simp only [do_request, if_true] at h
      cases h1 : (net k).outcome with
      | error e => rw [h1] at h; simp at h
      | ok resp =>
          rw [h1] at h
          by_cases h4 : resp.status_code ≥ 400
          · simp only [h4, if_true] at h
            cases h2 : (net (k + 1)).outcome with
            | error e => rw [h2] at h; simp at h
            | ok resp2 =>
                rw [h2] at h
                simp only [Except.ok.injEq] at h
                exact ⟨k + 1, by rw [h2, h]⟩
          · simp only [h4, if_false] at h
            simp only [Except.ok.injEq] at h
            exact ⟨k, by rw [h1, h]⟩

lemma process_success_input_url (net : Nat → NetCall) (k : Nat) (resp : Response) (elapsed : ℚ)
    (url lbl : String) (htg safari : Bool) :
    (process_success net k resp elapsed url lbl htg safari).input_url = url := by
  unfold process_success
  split
  · split
    · rfl
    · split <;> rfl
  · rfl

lemma process_success_rt (net : Nat → NetCall) (k : Nat) (resp : Response) (elapsed : ℚ)
    (url lbl : String) (htg safari : Bool) :
    (process_success net k resp elapsed url lbl htg safari).response_time_ms = elapsed := by
  unfold process_success
  split
  · split
    · rfl
    · split <;> rfl
  · rfl

lemma process_success_soft404 (net : Nat → NetCall) (k : Nat) (resp : Response) (elapsed : ℚ)
    (url lbl : String) (htg safari : Bool) :
    (process_success net k resp elapsed url lbl htg safari).soft_404 =
      (resp.method == "GET" && resp.status_code == 200
        && detect_soft_404 resp.contentType (takeStr 8000 resp.bodyText)) := by
  unfold process_success
  split
  · split
    · rfl
    · split <;> rfl
  · rfl

lemma process_success_error (net : Nat → NetCall) (k : Nat) (resp : Response) (elapsed : ℚ)
    (url lbl : String) (htg safari : Bool) :
    (process_success net k resp elapsed url lbl htg safari).error = "" := by
  unfold process_success
  split
  · split
    · rfl
    · split <;> rfl
  · rfl

lemma process_success_final_cases (net : Nat → NetCall) (k : Nat) (resp : Response) (elapsed : ℚ)
    (url lbl : String) (htg safari : Bool) :
    (process_success net k resp elapsed url lbl htg safari).final_status_code =
        toString resp.status_code ∨
      ∃ alt, (do_request net k htg).1 = .ok alt ∧ alt.status_code < 400 ∧
        (process_success net k resp elapsed url lbl htg safari).final_status_code =
          toString alt.status_code := by
  unfold process_success
  split
  · cases h : (do_request net k htg).1 with
    | error e => left; rfl
    | ok alt =>
        by_cases hlt : alt.status_code < 400
        · right
          exact ⟨alt, rfl, hlt, by simp [hlt]⟩
        · left; simp [hlt]
  · left; rfl

lemma process_success_alt_cond (net : Nat → NetCall) (k : Nat) (resp : Response) (elapsed : ℚ)
    (url lbl : String) (htg safari : Bool)
    (h : ¬(safari = true ∧ (resp.status_code = 403 ∨ resp.status_code = 404))) :
    (process_success net k resp elapsed url lbl htg safari).alt_status_code = "" ∧
      (process_success net k resp elapsed url lbl htg safari).alt_user_agent_used = "" := by
  unfold process_success
  have hcond : (safari && (resp.status_code == 403 || resp.status_code == 404)) = false := by
    cases hs : safari with
    | false => simp
    | true =>
        have h2 : ¬(resp.status_code = 403 ∨ resp.status_code = 404) := fun hc => h ⟨hs, hc⟩
        push_neg at h2
        simp only [Bool.true_and, Bool.or_eq_false_iff, beq_eq_false_iff_ne, ne_eq]
        exact ⟨h2.1, h2.2⟩
  rw [hcond]
  exact ⟨rfl, rfl⟩

lemma process_success_promote (net : Nat → NetCall) (k : Nat) (resp : Response) (elapsed : ℚ)
    (url lbl : String) (htg : Bool) (alt : Response)
    (hst : resp.status_code = 403 ∨ resp.status_code = 404)
    (halt : (do_request net k htg).1 = .ok alt) (hlt : alt.status_code < 400) :
    process_success net k resp elapsed url lbl htg true =
      { input_url := url
        first_status_code := get_first_status alt
        final_status_code := toString alt.status_code
        final_url := alt.url
        response_time_ms := elapsed
        redirect_count := alt.history.length
        redirect_chain := build_redirect_chain alt
        method_used := alt.method
        user_agent_used := "Safari macOS (retry)"
        soft_404 := resp.method == "GET" && resp.status_code == 200
          && detect_soft_404 resp.contentType (takeStr 8000 resp.bodyText)
        error := ""
        alt_status_code := toString alt.status_code
        alt_user_agent_used := "Safari macOS" } := by
  unfold process_success
  have hcond : (true && (resp.status_code == 403 || resp.status_code == 404)) = true := by
    rcases hst with h | h <;> simp [h]
  rw [hcond, halt]
  simp [hlt]

lemma chainSpec_of_build {s : String} {rc : Nat} {chain : String} (resp : Response)
    (h1 : chain = build_redirect_chain resp) (h2 : rc = resp.history.length)
    (h3 : s = toString resp.status_code) :
    ∃ codes : List Nat, codes.length = rc ∧
      chain = joinArrow (codes.map (fun c => toString c) ++ [s]) := by
  refine ⟨resp.history, h2.symm, ?_⟩
  rw [h1, h3]
  unfold build_redirect_chain
  cases hh : resp.history with
  | nil => simp [joinArrow]
  | cons a l => rfl

lemma process_success_chain (net : Nat → NetCall) (k : Nat) (resp : Response) (elapsed : ℚ)
    (url lbl : String) (htg safari : Bool) :
    ChainSpec (process_success net k resp elapsed url lbl htg safari) := by
  unfold ChainSpec
  unfold process_success
  split
  · cases h : (do_request net k htg).1 with
    | error e => exact chainSpec_of_build resp rfl rfl rfl
    | ok alt =>
        by_cases hlt : alt.status_code < 400
        · simp only [hlt, if_true]
          exact chainSpec_of_build alt rfl rfl rfl
        · simp only [hlt, if_false]
          exact chainSpec_of_build resp rfl rfl rfl
  · exact chainSpec_of_build resp rfl rfl rfl

lemma exhaustedResult_fields (url lbl : String) (lastExn : Option Exn) (t : ℚ) :
    ∃ exc : Exn,
      (exhaustedResult url lbl lastExn t).final_status_code = classify_error exc ∧
      (exhaustedResult url lbl lastExn t).error = classify_error exc ∧
      (exhaustedResult url lbl lastExn t).input_url = url ∧
      (exhaustedResult url lbl lastExn t).response_time_ms = t ∧
      (exhaustedResult url lbl lastExn t).redirect_chain = "" ∧
      (exhaustedResult url lbl lastExn t).soft_404 = false ∧
      (exhaustedResult url lbl lastExn t).alt_status_code = "" ∧
      (exhaustedResult url lbl lastExn t).alt_user_agent_used = "" := by
  cases lastExn with
  | none => exact ⟨⟨"NoneType", "None"⟩, rfl, rfl, rfl, rfl, rfl, rfl, rfl, rfl⟩
  | some e => exact ⟨e, rfl, rfl, rfl, rfl, rfl, rfl, rfl, rfl⟩

lemma attemptLoop_step (net : Nat → NetCall) (url lbl : String) (htg safari : Bool)
    (k n done : Nat) (d : ℚ) (x : Option Exn) :
    attemptLoop net url lbl htg safari k (n + 1) done d x =
      match (do_request net k htg).1 with
      | .ok resp =>
          (process_success net (do_request net k htg).2.2 resp (do_request net k htg).2.1
            url lbl htg safari, done + 1)
      | .error e =>
          attemptLoop net url lbl htg safari (do_request net k htg).2.2 n (done + 1)
            (do_request net k htg).2.1 (some e) := by
  simp only [attemptLoop]

lemma attemptLoop_step_neterr {net : Nat → NetCall} {url lbl : String} {htg safari : Bool}
    {k : Nat} {e : Exn} (n done : Nat) (d : ℚ) (x : Option Exn)
    (he : (net k).outcome = .error e) :
    attemptLoop net url lbl htg safari k (n + 1) done d x =
      attemptLoop net url lbl htg safari (k + 1) n (done + 1) ((net k).dur) (some e) := by
  rw [attemptLoop_step, do_request_err htg he]

lemma attemptLoop_cases (net : Nat → NetCall) (url lbl : String) (htg safari : Bool) :
    ∀ (n k done : Nat) (d : ℚ) (x : Option Exn),
    (∃ k0 resp, (do_request net k0 htg).1 = .ok resp ∧
      (attemptLoop net url lbl htg safari k n done d x).1 =
        process_success net (do_request net k0 htg).2.2 resp (do_request net k0 htg).2.1
          url lbl htg safari) ∨
    (∃ (le : Option Exn) (t : ℚ),
      (attemptLoop net url lbl htg safari k n done d x).1 = exhaustedResult url lbl le t) := by
  intro n
  induction n with
  | zero =>
      intro k done d x
      exact Or.inr ⟨x, d, rfl⟩
  | succ m ih =>
      intro k done d x
      cases h : (do_request net k htg).1 with
      | ok resp =>
          left
          refine ⟨k, resp, h, ?_⟩
          rw [attemptLoop_step, h]
      | error e =>
          rw [attemptLoop_step, h]
          exact ih (do_request net k htg).2.2 (done + 1) (do_request net k htg).2.1 (some e)

lemma attemptLoop_allFail (net : Nat → NetCall) (url lbl : String) (htg safari : Bool)
    (hfail : ∀ k, ∃ e, (net k).outcome = .error e) :
    ∀ (n k done : Nat) (d : ℚ) (x : Option Exn),
    ∃ e, (net (k + n)).outcome = .error e ∧
      attemptLoop net url lbl htg safari k (n + 1) done d x =
        (exhaustedResult url lbl (some e) ((net (k + n)).dur), done + (n + 1)) := by
  intro n
  induction n with
  | zero =>
      intro k done d x
      obtain ⟨e, he⟩ := hfail k
      refine ⟨e, by simpa using he, ?_⟩
      rw [attemptLoop_step_neterr 0 done d x he]
      simp only [attemptLoop, Nat.add_zero]
  | succ m ih =>
      intro k done d x
      obtain ⟨e, he⟩ := hfail k
      obtain ⟨e2, he2, heq⟩ := ih (k + 1) (done + 1) ((net k).dur) (some e)
      refine ⟨e2, ?_, ?_⟩
      · rw [show k + (m + 1) = k + 1 + m from by omega]
        exact he2
      · rw [attemptLoop_step_neterr (m + 1) done d x he, heq]
        rw [show k + 1 + m = k + (m + 1) from by omega]
        rw [show done + 1 + (m + 1) = done + (m + 1 + 1) from by omega]

lemma attemptLoop_input_url (net : Nat → NetCall) (url lbl : String) (htg safari : Bool) :
    ∀ (n k done : Nat) (d : ℚ) (x : Option Exn),
    (attemptLoop net url lbl htg safari k n done d x).1.input_url = url := by
  intro n
  induction n with
  | zero =>
      intro k done d x
      obtain ⟨exc, -, -, h3, -⟩ := exhaustedResult_fields url lbl x d
      exact h3
  | succ m ih =>
      intro k done d x
      cases h : (do_request net k htg).1 with
      | ok resp =>
          rw [attemptLoop_step, h]
          exact process_success_input_url net _ resp _ url lbl htg safari
      | error e =>
          rw [attemptLoop_step, h]
          exact ih (do_request net k htg).2.2 (done + 1) (do_request net k htg).2.1 (some e)

lemma check_one_input_url (net : Nat → NetCall) (url lbl : String) (htg : Bool)
    (retries : Nat) (safari : Bool) :
    (check_one net url lbl htg retries safari).input_url = url :=
  attemptLoop_input_url net url lbl htg safari (1 + retries) 0 0 0 none

lemma check_one_cases (net : Nat → NetCall) (url lbl : String) (htg : Bool)
    (retries : Nat) (safari : Bool) :
    (∃ k0 resp, (do_request net k0 htg).1 = .ok resp ∧
      check_one net url lbl htg retries safari =
        process_success net (do_request net k0 htg).2.2 resp (do_request net k0 htg).2.1
          url lbl htg safari) ∨
    (∃ (le : Option Exn) (t : ℚ),
      check_one net url lbl htg retries safari = exhaustedResult url lbl le t) :=
  attemptLoop_cases net url lbl htg safari (1 + retries) 0 0 0 none

lemma check_one_final_valid (net : Nat → NetCall) (url lbl : String) (htg : Bool)
    (retries : Nat) (safari : Bool)
    (hval : ∀ k r, (net k).outcome = .ok r → 100 ≤ r.status_code ∧ r.status_code ≤ 999) :
    (Is3DigitStatus (check_one net url lbl htg retries safari).final_status_code ∨
      ErrorTaxonomy (check_one net url lbl htg retries safari).final_status_code) ∧
    (check_one net url lbl htg retries safari).final_status_code ≠ "" := by
  rcases check_one_cases net url lbl htg retries safari with
    ⟨k0, resp, hok, heq⟩ | ⟨le, t, heq⟩
  · obtain ⟨k1, hnet⟩ := do_request_ok_src hok
    obtain ⟨hb1, hb2⟩ := hval k1 resp hnet
    rcases process_success_final_cases net (do_request net k0 htg).2.2 resp
        (do_request net k0 htg).2.1 url lbl htg safari with hf | ⟨alt, halt, -, hf⟩
    · rw [heq, hf]
      exact ⟨Or.inl ⟨resp.status_code, hb1, hb2, rfl⟩, toString_nat_ne_empty hb1 hb2⟩
    · obtain ⟨k2, hnet2⟩ := do_request_ok_src halt
      obtain ⟨hc1, hc2⟩ := hval k2 alt hnet2
      rw [heq, hf]
      exact ⟨Or.inl ⟨alt.status_code, hc1, hc2, rfl⟩, toString_nat_ne_empty hc1 hc2⟩
  · obtain ⟨exc, h1, -⟩ := exhaustedResult_fields url lbl le t
    rw [heq, h1]
    exact ⟨Or.inr (classify_error_taxonomy exc), classify_error_ne_empty exc⟩

lemma exhaustedResult_some_fields (url lbl : String) (e : Exn) (t : ℚ) :
    (exhaustedResult url lbl (some e) t).final_status_code = classify_error e ∧
      (exhaustedResult url lbl (some e) t).error = classify_error e :=
  ⟨rfl, rfl⟩

lemma joinArrow_append_ne_empty (l : List String) (x : String) (hx : x ≠ "") :
    joinArrow (l ++ [x]) ≠ "" := by
  induction l with
  | nil => simpa [joinArrow] using hx
  | cons a t ih =>
      cases hc : t ++ [x] with
      | nil => exact absurd hc (by simp)
      | cons b r =>
          simp only [List.cons_append, hc, joinArrow]
          intro hcon
          have hd := congrArg String.data hcon
          simp [String.data_append] at hd

/-! ## Claim theorems for the checker -/

/-- Claim C5: error classification maps every transport exception to exactly
one label via the first-match priority cascade SSL_ERROR → TIMEOUT →
DNS_ERROR → CONNECT_ERROR → READ_ERROR → generic "ERROR (name)"; an earlier
matching category excludes all later ones, and the produced label always
belongs to the fixed taxonomy. -/
theorem claim_C5_error_cascade :
    ∀ exc : Exn,
      classify_error exc = firstMatch cascadeRules genericLabel exc ∧
      ErrorTaxonomy (classify_error exc) :=
  fun exc => ⟨rfl, classify_error_taxonomy exc⟩

/-- Claim C2 (amended): the soft-404 flag of a returned CheckResult reflects
the primary probe's response only — it is set iff that response was obtained
by GET with status 200, HTML-like content type, and a marker in the first
8000 characters of its body.  It is never recomputed from the alternate
probe's response and is false on the all-attempts-failed path; consequently,
whenever the flag is set, some primary response satisfying all four
conditions was observed. -/
theorem claim_C2_soft404_amended :
    (∀ (net : Nat → NetCall) (k : Nat) (resp : Response) (elapsed : ℚ) (url lbl : String)
        (htg safari : Bool),
      (process_success net k resp elapsed url lbl htg safari).soft_404 =
        (resp.method == "GET" && resp.status_code == 200
          && detect_soft_404 resp.contentType (takeStr 8000 resp.bodyText))) ∧
    (∀ (url lbl : String) (le : Option Exn) (t : ℚ),
      (exhaustedResult url lbl le t).soft_404 = false) ∧
    (∀ (net : Nat → NetCall) (url lbl : String) (htg : Bool) (retries : Nat) (safari : Bool),
      (check_one net url lbl htg retries safari).soft_404 = true →
      ∃ k0 resp, (do_request net k0 htg).1 = .ok resp ∧
        resp.method = "GET" ∧ resp.status_code = 200 ∧
        detect_soft_404 resp.contentType (takeStr 8000 resp.bodyText) = true) := by
  refine ⟨process_success_soft404, ?_, ?_⟩
  · intro url lbl le t
    obtain ⟨exc, -, -, -, -, -, h6, -⟩ := exhaustedResult_fields url lbl le t
    exact h6
  · intro net url lbl htg retries safari hsoft
    rcases check_one_cases net url lbl htg retries safari with
      ⟨k0, resp, hok, heq⟩ | ⟨le, t, heq⟩
    · rw [heq, process_success_soft404] at hsoft
      simp only [Bool.and_eq_true, beq_iff_eq] at hsoft
      exact ⟨k0, resp, hok, hsoft.1.1, hsoft.1.2, hsoft.2⟩
    · obtain ⟨exc, -, -, -, -, -, h6, -⟩ := exhaustedResult_fields url lbl le t
      rw [heq, h6] at hsoft
      exact absurd hsoft (by simp)

/-- Claim C2 counterexample: with the alternate retry enabled, a primary GET
404 followed by a promoted alternate GET 200 whose content type is HTML-like
and whose body contains a soft-404 marker yields a result whose final status
is "200", method GET, yet whose soft-404 flag is false — refuting the
claimed "if and only if" on the returned result. -/
theorem claim_C2_counterexample :
    (check_one altNet "https://example.com/x" "Chrome macOS (default)" false 0 true).final_status_code
        = "200" ∧
    (check_one altNet "https://example.com/x" "Chrome macOS (default)" false 0 true).method_used
        = "GET" ∧
    detect_soft_404 c2AltResp.contentType (takeStr 8000 c2AltResp.bodyText) = true ∧
    detect_soft_404 c2PrimaryResp.contentType (takeStr 8000 c2PrimaryResp.bodyText) = true ∧
    (check_one altNet "https://example.com/x" "Chrome macOS (default)" false 0 true).soft_404
        = false := by
  decide

/-- Claim C9 (amended): response_time_ms is the elapsed time of the primary
probe of the attempt that produced the returned result; the alternate
identity probe never updates it (so on promotion it still carries the
primary probe's elapsed time); and when all attempts fail it is the last
attempt's elapsed time. -/
theorem claim_C9_response_time_amended :
    (∀ (net : Nat → NetCall) (k : Nat) (resp : Response) (elapsed : ℚ) (url lbl : String)
        (htg safari : Bool),
      (process_success net k resp elapsed url lbl htg safari).response_time_ms = elapsed) ∧
    (∀ (net : Nat → NetCall) (url lbl : String) (htg : Bool) (retries : Nat) (safari : Bool),
      (∀ k, ∃ e, (net k).outcome = .error e) →
      (check_one net url lbl htg retries safari).response_time_ms = (net retries).dur) := by
  refine ⟨process_success_rt, ?_⟩
  intro net url lbl htg retries safari hfail
  obtain ⟨e, -, heq⟩ := attemptLoop_allFail net url lbl htg safari hfail retries 0 0 0 none
  rw [show (0 : Nat) + retries = retries from by omega] at heq
  have hco : check_one net url lbl htg retries safari =
      exhaustedResult url lbl (some e) ((net retries).dur) := by
    unfold check_one check_one_run
    rw [show 1 + retries = retries + 1 from by omega, heq]
  rw [hco]
  obtain ⟨exc, -, -, -, h4, -⟩ := exhaustedResult_fields url lbl (some e) ((net retries).dur)
  exact h4

/-- Claim C9 counterexample: in the promoted-alternate scenario the primary
probe takes 5 ms and the alternate probe takes 7 ms; the returned result is
promoted (identity label marks the retry) but response_time_ms is 5, the
primary probe's elapsed time, not the alternate probe's 7. -/
theorem claim_C9_counterexample :
    (check_one altNet "https://example.com/x" "Chrome macOS (default)" false 0 true).user_agent_used
        = "Safari macOS (retry)" ∧
    (do_request altNet 1 false).2.1 = 7 ∧
    (check_one altNet "https://example.com/x" "Chrome macOS (default)" false 0 true).response_time_ms
        = 5 ∧
    (5 : ℚ) ≠ 7 := by
  decide

/-- Claim C9 witness: on an all-timeout oracle with retries = 1 the returned
response time is the last (second) attempt's elapsed time. -/
theorem claim_C9_witness :
    (check_one timeoutNet "https://example.com/t" "Chrome macOS (default)" true 1 true).response_time_ms
      = (timeoutNet 1).dur :=
  claim_C9_response_time_amended.2 timeoutNet "https://example.com/t" "Chrome macOS (default)"
    true 1 true (fun _ => ⟨⟨"ReadTimeout", "timed out"⟩, rfl⟩)

/-- Claim C4: when every probe attempt fails at the transport level with an
exception classified TIMEOUT, `_check_one` makes exactly `retries + 1`
strictly sequential attempts (2 when retries = 1) and returns — rather than
raising — a CheckResult whose final_status_code and error both equal
"TIMEOUT". -/
theorem claim_C4_timeout_retries :
    ∀ (net : Nat → NetCall) (url lbl : String) (htg safari : Bool) (retries : Nat),
    (∀ k, ∃ e, (net k).outcome = .error e ∧ classify_error e = "TIMEOUT") →
    (check_one_run net url lbl htg retries safari).2 = retries + 1 ∧
    (check_one net url lbl htg retries safari).final_status_code = "TIMEOUT" ∧
    (check_one net url lbl htg retries safari).error = "TIMEOUT" := by
  intro net url lbl htg safari retries h
  have hfail : ∀ k, ∃ e, (net k).outcome = .error e :=
    fun k => ⟨(h k).choose, (h k).choose_spec.1⟩
  obtain ⟨e, he, heq⟩ := attemptLoop_allFail net url lbl htg safari hfail retries 0 0 0 none
  rw [show (0 : Nat) + retries = retries from by omega] at he heq
  obtain ⟨e2, he2, hcl⟩ := h retries
  have hee : e = e2 := by
    rw [he] at he2
    exact Except.error.inj he2
  subst hee
  have hrun : check_one_run net url lbl htg retries safari =
      (exhaustedResult url lbl (some e) ((net retries).dur), 0 + (retries + 1)) := by
    unfold check_one_run
    rw [show 1 + retries = retries + 1 from by omega, heq]
  obtain ⟨hfin, herr⟩ := exhaustedResult_some_fields url lbl e ((net retries).dur)
  refine ⟨by rw [hrun]; omega, ?_, ?_⟩
  · show (check_one_run net url lbl htg retries safari).1.final_status_code = "TIMEOUT"
    rw [hrun]
    rw [hfin, hcl]
  · show (check_one_run net url lbl htg retries safari).1.error = "TIMEOUT"
    rw [hrun]
    rw [herr, hcl]

/-- Claim C4 witness: on the all-timeout oracle with retries = 1, exactly 2
attempts are made and both status fields carry "TIMEOUT". -/
theorem claim_C4_witness :
    (check_one_run timeoutNet "https://example.com/t" "Chrome macOS (default)" true 1 true).2 = 2 ∧
    (check_one timeoutNet "https://example.com/t" "Chrome macOS (default)" true 1 true).final_status_code
        = "TIMEOUT" ∧
    (check_one timeoutNet "https://example.com/t" "Chrome macOS (default)" true 1 true).error
        = "TIMEOUT" :=
  claim_C4_timeout_retries timeoutNet "https://example.com/t" "Chrome macOS (default)" true true 1
    (fun _ => ⟨⟨"ReadTimeout", "timed out"⟩, rfl, by decide⟩)

/-- Claim C3: the alternate-identity fields of a returned CheckResult are
populated only when the alternate-retry option is enabled and the primary
probe's final status was 403 or 404; and whenever the alternate probe's
status is < 400, the first-hop status, final status, final URL, redirect
count, redirect chain, method and identity-used fields are overwritten with
the alternate probe's values and the identity-used label marks the retry. -/
theorem claim_C3_alt_identity :
    (∀ (net : Nat → NetCall) (url lbl : String) (htg : Bool) (retries : Nat) (safari : Bool),
      ((check_one net url lbl htg retries safari).alt_status_code ≠ "" ∨
        (check_one net url lbl htg retries safari).alt_user_agent_used ≠ "") →
      safari = true ∧ ∃ (k : Nat) (resp : Response) (elapsed : ℚ),
        (resp.status_code = 403 ∨ resp.status_code = 404) ∧
        check_one net url lbl htg retries safari =
          process_success net k resp elapsed url lbl htg safari) ∧
    (∀ (net : Nat → NetCall) (k : Nat) (resp : Response) (elapsed : ℚ) (url lbl : String)
        (htg : Bool) (alt : Response),
      (resp.status_code = 403 ∨ resp.status_code = 404) →
      (do_request net k htg).1 = .ok alt → alt.status_code < 400 →
      (process_success net k resp elapsed url lbl htg true).first_status_code
          = get_first_status alt ∧
      (process_success net k resp elapsed url lbl htg true).final_status_code
          = toString alt.status_code ∧
      (process_success net k resp elapsed url lbl htg true).final_url = alt.url ∧
      (process_success net k resp elapsed url lbl htg true).redirect_count
          = alt.history.length ∧
      (process_success net k resp elapsed url lbl htg true).redirect_chain
          = build_redirect_chain alt ∧
      (process_success net k resp elapsed url lbl htg true).method_used = alt.method ∧
      (process_success net k resp elapsed url lbl htg true).user_agent_used
          = "Safari macOS (retry)" ∧
      (process_success net k resp elapsed url lbl htg true).alt_status_code
          = toString alt.status_code ∧
      (process_success net k resp elapsed url lbl htg true).alt_user_agent_used
          = "Safari macOS") := by
  constructor
  · intro net url lbl htg retries safari hne
    rcases check_one_cases net url lbl htg retries safari with
      ⟨k0, resp, hok, heq⟩ | ⟨le, t, heq⟩
    · by_cases hc : safari = true ∧ (resp.status_code = 403 ∨ resp.status_code = 404)
      · exact ⟨hc.1, (do_request net k0 htg).2.2, resp, (do_request net k0 htg).2.1, hc.2, heq⟩
      · obtain ⟨h1, h2⟩ := process_success_alt_cond net (do_request net k0 htg).2.2 resp
          (do_request net k0 htg).2.1 url lbl htg safari hc
        rw [heq] at hne
        rcases hne with hne | hne
        · exact absurd h1 hne
        · exact absurd h2 hne
    · obtain ⟨exc, -, -, -, -, -, -, h7, h8⟩ := exhaustedResult_fields url lbl le t
      rw [heq] at hne
      rcases hne with hne | hne
      · exact absurd h7 hne
      · exact absurd h8 hne
  · intro net k resp elapsed url lbl htg alt hst halt hlt
    rw [process_success_promote net k resp elapsed url lbl htg alt hst halt hlt]
    exact ⟨rfl, rfl, rfl, rfl, rfl, rfl, rfl, rfl, rfl⟩

/-- Claim C3 witness: in the concrete 404-then-promoted-200 scenario the
promotion conjunct applies and marks the identity label as a retry. -/
theorem claim_C3_witness :
    (process_success altNet 1 c2PrimaryResp 5 "https://example.com/x" "Chrome macOS (default)"
        false true).user_agent_used = "Safari macOS (retry)" ∧
    (process_success altNet 1 c2PrimaryResp 5 "https://example.com/x" "Chrome macOS (default)"
        false true).final_status_code = "200" :=
  have h := claim_C3_alt_identity.2 altNet 1 c2PrimaryResp 5 "https://example.com/x"
    "Chrome macOS (default)" false c2AltResp (Or.inr rfl) rfl (by decide)
  ⟨h.2.2.2.2.2.2.1, h.2.1⟩

/-- Claim C1: for every input URL list and settings (over any per-URL network
oracle whose responses carry HTTP status codes in 100..999), `run_checks`
returns exactly one CheckResult per input URL — same length, i-th result for
the i-th URL — and each result's final_status_code is either a 3-digit
numeric status string or a member of the fixed error taxonomy, never
empty. -/
theorem claim_C1_one_result_per_url :
    ∀ (nets : String → Nat → NetCall) (urls : List String) (lbl : String) (htg : Bool)
      (retries : Nat) (safari : Bool),
    (∀ u k r, ((nets u) k).outcome = .ok r → 100 ≤ r.status_code ∧ r.status_code ≤ 999) →
    (run_checks nets urls lbl htg retries safari).length = urls.length ∧
    ∀ (i : Nat) (hi : i < urls.length)
      (hi2 : i < (run_checks nets urls lbl htg retries safari).length),
      ((run_checks nets urls lbl htg retries safari).get ⟨i, hi2⟩).input_url
          = urls.get ⟨i, hi⟩ ∧
      (Is3DigitStatus ((run_checks nets urls lbl htg retries safari).get ⟨i, hi2⟩).final_status_code ∨
        ErrorTaxonomy ((run_checks nets urls lbl htg retries safari).get ⟨i, hi2⟩).final_status_code) ∧
      ((run_checks nets urls lbl htg retries safari).get ⟨i, hi2⟩).final_status_code ≠ "" := by
  intro nets urls lbl htg retries safari hval
  refine ⟨by simp [run_checks], ?_⟩
  intro i hi hi2
  have hg : (run_checks nets urls lbl htg retries safari).get ⟨i, hi2⟩ =
      check_one (nets (urls.get ⟨i, hi⟩)) (urls.get ⟨i, hi⟩) lbl htg retries safari := by
    simp [run_checks, List.get_eq_getElem, List.getElem_map]
  rw [hg]
  obtain ⟨hv, hne⟩ := check_one_final_valid (nets (urls.get ⟨i, hi⟩)) (urls.get ⟨i, hi⟩)
    lbl htg retries safari (hval (urls.get ⟨i, hi⟩))
  exact ⟨check_one_input_url _ _ _ _ _ _, hv, hne⟩

/-- Claim C1 witness: a two-URL run over an all-200 oracle returns exactly
two results. -/
theorem claim_C1_witness :
    (run_checks okNets ["https://a.example", "https://b.example"] "Chrome macOS (default)"
      true 1 true).length = 2 :=
  (claim_C1_one_result_per_url okNets ["https://a.example", "https://b.example"]
    "Chrome macOS (default)" true 1 true
    (fun u k r h => by
      simp only [okNets, okNet] at h
      injection h with h2
      subst h2
      decide)).1

/-- Claim C8 (amended): for every CheckResult produced by a successful probe
(equivalently, whose error field is empty), the redirect chain is exactly
`redirect_count` hop codes followed by the final status code, arrow-joined —
`redirect_count + 1` segments ending in the final status; on the
all-attempts-failed path the chain is empty while the final status carries
the error label, so the property is restricted to error-free results. -/
theorem claim_C8_chain_amended :
    (∀ (net : Nat → NetCall) (k : Nat) (resp : Response) (elapsed : ℚ) (url lbl : String)
        (htg safari : Bool),
      ChainSpec (process_success net k resp elapsed url lbl htg safari)) ∧
    (∀ (nets : String → Nat → NetCall) (urls : List String) (lbl : String) (htg : Bool)
        (retries : Nat) (safari : Bool) (r : CheckResult),
      r ∈ run_checks nets urls lbl htg retries safari → r.error = "" → ChainSpec r) := by
  refine ⟨process_success_chain, ?_⟩
  intro nets urls lbl htg retries safari r hmem herr
  simp only [run_checks, List.mem_map] at hmem
  obtain ⟨u, -, hu⟩ := hmem
  subst hu
  rcases check_one_cases (nets u) u lbl htg retries safari with
    ⟨k0, resp, hok, heq⟩ | ⟨le, t, heq⟩
  · rw [heq]
    exact process_success_chain (nets u) _ resp _ u lbl htg safari
  · obtain ⟨exc, -, h2, -⟩ := exhaustedResult_fields u lbl le t
    rw [heq, h2] at herr
    exact absurd herr (classify_error_ne_empty exc)

/-- Claim C8 witness: the chain property holds for a concrete successful
check over the all-200 oracle. -/
theorem claim_C8_witness :
    ChainSpec (check_one (okNets "https://a.example") "https://a.example"
      "Chrome macOS (default)" true 1 true) :=
  claim_C8_chain_amended.2 okNets ["https://a.example"] "Chrome macOS (default)" true 1 true
    (check_one (okNets "https://a.example") "https://a.example" "Chrome macOS (default)" true 1 true)
    (by simp [run_checks]) (by decide)

/-- Claim C8 counterexample: on the all-timeout oracle the returned result
has an empty redirect chain and final status "TIMEOUT", so the chain does
not end with the final status code — the claimed property fails for
error results. -/
theorem claim_C8_counterexample :
    (check_one timeoutNet "https://example.com/t" "Chrome macOS (default)" true 1 true).redirect_chain
        = "" ∧
    (check_one timeoutNet "https://example.com/t" "Chrome macOS (default)" true 1 true).final_status_code
        = "TIMEOUT" ∧
    ¬ ChainSpec (check_one timeoutNet "https://example.com/t" "Chrome macOS (default)" true 1 true) := by
  refine ⟨by decide, by decide, ?_⟩
  rintro ⟨codes, -, hch⟩
  have h1 : (check_one timeoutNet "https://example.com/t" "Chrome macOS (default)"
      true 1 true).redirect_chain = "" := by decide
  have h2 : (check_one timeoutNet "https://example.com/t" "Chrome macOS (default)"
      true 1 true).final_status_code = "TIMEOUT" := by decide
  rw [h1, h2] at hch
  exact joinArrow_append_ne_empty (codes.map (fun c => toString c)) "TIMEOUT" (by decide) hch.symm

/-! ## Helper lemmas for the sitemap claims -/

lemma mergeDedup_cons (acc : List String) (x : String) (xs : List String) :
    mergeDedup acc (x :: xs) = mergeDedup (if x ∈ acc then acc else acc ++ [x]) xs := rfl

lemma mergeDedup_append (acc xs ys : List String) :
    mergeDedup acc (xs ++ ys) = mergeDedup (mergeDedup acc xs) ys :=
  List.foldl_append _ _ _ _

lemma mergeDedup_nodup : ∀ (xs acc : List String), acc.Nodup → (mergeDedup acc xs).Nodup := by
  intro xs
  induction xs with
  | nil => intro acc h; exact h
  | cons x t ih =>
      intro acc h
      rw [mergeDedup_cons]
      by_cases hx : x ∈ acc
      · rw [if_pos hx]
        exact ih acc h
      · rw [if_neg hx]
        exact ih _ (by simp [List.nodup_append, h, hx])

lemma mergeDedup_eq_append_fresh : ∀ (xs b : List String), mergeDedup b xs = b ++ fresh xs b := by
  intro xs
  induction xs with
  | nil => intro b; simp [mergeDedup, fresh]
  | cons x t ih =>
      intro b
      rw [mergeDedup_cons]
      by_cases hx : x ∈ b
      · rw [if_pos hx]
        simp only [fresh, if_pos hx]
        exact ih b
      · rw [if_neg hx]
        simp only [fresh, if_neg hx]
        rw [ih (b ++ [x])]
        simp

lemma mergeDedup_fresh :
    ∀ (xs b acc : List String), (∀ u, u ∈ b → u ∈ acc) →
      mergeDedup acc (fresh xs b) = mergeDedup acc xs := by
  intro xs
  induction xs with
  | nil => intro b acc _; rfl
  | cons x t ih =>
      intro b acc hba
      by_cases hx : x ∈ b
      · simp only [fresh, if_pos hx]
        rw [ih b acc hba, mergeDedup_cons, if_pos (hba x hx)]
      · simp only [fresh, if_neg hx]
        rw [mergeDedup_cons, mergeDedup_cons]
        by_cases hax : x ∈ acc
        · rw [if_pos hax]
          exact ih (b ++ [x]) acc (by
            intro u hu
            rcases List.mem_append.mp hu with hu | hu
            · exact hba u hu
            · rw [List.mem_singleton.mp hu]; exact hax)
        · rw [if_neg hax]
          exact ih (b ++ [x]) (acc ++ [x]) (by
            intro u hu
            rcases List.mem_append.mp hu with hu | hu
            · exact List.mem_append.mpr (Or.inl (hba u hu))
            · exact List.mem_append.mpr (Or.inr hu))

lemma mergeDedup_dedupFirst (acc xs : List String) :
    mergeDedup acc (dedupFirst xs) = mergeDedup acc xs := by
  unfold dedupFirst
  rw [mergeDedup_eq_append_fresh xs []]
  simpa using mergeDedup_fresh xs [] acc (by simp)

lemma locAppend_eq : ∀ (ls : List XmlNode) (acc : List String),
    locAppend ls acc = mergeDedup acc (locTexts ls) := by
  intro ls
  induction ls with
  | nil => intro acc; rfl
  | cons child rest ih =>
      intro acc
      by_cases h : strip_ns child.tag = "loc" ∧ textTruthy child = true
      · simp only [locAppend, locTexts, if_pos h]
        rw [ih, mergeDedup_cons]
      · simp only [locAppend, locTexts, if_neg h]
        exact ih acc

lemma urlsetCollect_eq : ∀ (cs : List XmlNode) (acc : List String),
    urlsetCollect cs acc = mergeDedup acc (locsRaw cs) := by
  intro cs
  induction cs with
  | nil => intro acc; rfl
  | cons el rest ih =>
      intro acc
      by_cases h : strip_ns el.tag = "url"
      · simp only [urlsetCollect, locsRaw, if_pos h]
        rw [ih, locAppend_eq, mergeDedup_append]
      · simp only [urlsetCollect, locsRaw, if_neg h]
        exact ih acc

lemma mergeDedup_mergeDedup_nil (acc xs : List String) :
    mergeDedup acc (mergeDedup [] xs) = mergeDedup acc xs :=
  mergeDedup_dedupFirst acc xs

lemma parse_sim :
    ∀ (b depth : Nat), 4 - depth ≤ b →
    (∀ w ls v acc, locLoop w ls v depth acc =
        (mergeDedup acc (rawLocLoop w ls v depth).1, (rawLocLoop w ls v depth).2)) ∧
    (∀ w cs v acc, indexLoop w cs v depth acc =
        (mergeDedup acc (rawIndexLoop w cs v depth).1, (rawIndexLoop w cs v depth).2)) ∧
    (∀ w root v, dispatch w root v depth =
        (mergeDedup [] (rawDispatch w root v depth).1, (rawDispatch w root v depth).2)) ∧
    (∀ w s v, parse_sitemap w s v depth =
        (mergeDedup [] (rawParse w s v depth).1, (rawParse w s v depth).2)) := by
  intro b
  induction b using Nat.strong_induction_on with
  | _ b ih =>
    intro depth hd
    have L : ∀ w ls v acc, locLoop w ls v depth acc =
        (mergeDedup acc (rawLocLoop w ls v depth).1, (rawLocLoop w ls v depth).2) := by
      intro w ls
      induction ls with
      | nil => intro v acc; rw [locLoop, rawLocLoop]; rfl
      | cons l rest ihl =>
          intro v acc
          rw [locLoop, rawLocLoop]
          by_cases h1 : strip_ns l.tag = "loc" ∧ textTruthy l = true
          · simp only [if_pos h1]
            by_cases h2 : depth + 1 ≤ MAX_DEPTH ∧ locText l ∉ v
            · have hm : 4 - (depth + 1) < b := by
                have h21 := h2.1
                simp only [MAX_DEPTH] at h21
                omega
              have hP := (ih (4 - (depth + 1)) hm (depth + 1) (Nat.le_refl _)).2.2.2 w
              simp only [dif_pos h2, hP]
              rw [ihl]
              simp only [mergeDedup_mergeDedup_nil, mergeDedup_append]
            · simp only [dif_neg h2]
              exact ihl v acc
          · simp only [if_neg h1]
            exact ihl v acc
    have I : ∀ w cs v acc, indexLoop w cs v depth acc =
        (mergeDedup acc (rawIndexLoop w cs v depth).1, (rawIndexLoop w cs v depth).2) := by
      intro w cs
      induction cs with
      | nil => intro v acc; rw [indexLoop, rawIndexLoop]; rfl
      | cons c rest ihc =>
          intro v acc
          rw [indexLoop, rawIndexLoop]
          by_cases h1 : strip_ns c.tag = "sitemap"
          · simp only [if_pos h1, L]
            rw [ihc]
            simp only [mergeDedup_append]
          · simp only [if_neg h1]
            exact ihc v acc
    have D : ∀ w root v, dispatch w root v depth =
        (mergeDedup [] (rawDispatch w root v depth).1, (rawDispatch w root v depth).2) := by
      intro w root v
      rw [dispatch, rawDispatch]
      by_cases h1 : strip_ns root.tag = "sitemapindex"
      · simp only [if_pos h1, I]
      · simp only [if_neg h1]
        by_cases h2 : strip_ns root.tag = "urlset"
        · simp only [if_pos h2]
          rw [urlsetCollect_eq]
        · simp only [if_neg h2]
          rfl
    refine ⟨L, I, D, ?_⟩
    intro w s v
    match s with
    | .bytes none => rw [parse_sitemap, rawParse]; rfl
    | .bytes (some root) => rw [parse_sitemap, rawParse]; exact D w root v
    | .url u =>
        rw [parse_sitemap, rawParse]
        by_cases hm : pyStrip u ∈ v
        · simp only [if_pos hm]
          rfl
        · simp only [if_neg hm]
          cases hw : w (pyStrip u) with
          | none => rfl
          | some root => simp only [D]

lemma visitInv_id (v urls : List String) : VisitInv v (urls, v, []) :=
  ⟨fun _ h => h, List.nodup_nil, by simp⟩

lemma visitInv_comp {v : List String} {r1 r2 : List String × List String × List String}
    (h1 : VisitInv v r1) (h2 : VisitInv r1.2.1 r2) (urls : List String) :
    VisitInv v (urls, r2.2.1, r1.2.2 ++ r2.2.2) := by
  obtain ⟨h1a, h1b, h1c⟩ := h1
  obtain ⟨h2a, h2b, h2c⟩ := h2
  refine ⟨fun x hx => h2a x (h1a x hx), ?_, ?_⟩
  · rw [List.nodup_append]
    refine ⟨h1b, h2b, ?_⟩
    intro u hu1 hu2
    exact (h2c u hu2).1 ((h1c u hu1).2)
  · intro u hu
    rcases List.mem_append.mp hu with hu | hu
    · exact ⟨(h1c u hu).1, h2a u (h1c u hu).2⟩
    · exact ⟨fun hv => (h2c u hu).1 (h1a u hv), (h2c u hu).2⟩

lemma visited_inv :
    ∀ (b depth : Nat), 4 - depth ≤ b →
    (∀ w ls v acc, VisitInv v (locLoop w ls v depth acc)) ∧
    (∀ w cs v acc, VisitInv v (indexLoop w cs v depth acc)) ∧
    (∀ w root v, VisitInv v (dispatch w root v depth)) ∧
    (∀ w s v, VisitInv v (parse_sitemap w s v depth)) := by
  intro b
  induction b using Nat.strong_induction_on with
  | _ b ih =>
    intro depth hd
    have L : ∀ w ls v acc, VisitInv v (locLoop w ls v depth acc) := by
      intro w ls
      induction ls with
      | nil => intro v acc; rw [locLoop]; exact visitInv_id v acc
      | cons l rest ihl =>
          intro v acc
          rw [locLoop]
          by_cases h1 : strip_ns l.tag = "loc" ∧ textTruthy l = true
          · simp only [if_pos h1]
            by_cases h2 : depth + 1 ≤ MAX_DEPTH ∧ locText l ∉ v
            · have hm : 4 - (depth + 1) < b := by
                have h21 := h2.1
                simp only [MAX_DEPTH] at h21
                omega
              have hP := (ih (4 - (depth + 1)) hm (depth + 1) (Nat.le_refl _)).2.2.2 w
                (.url (locText l)) v
              have hR := ihl (parse_sitemap w (.url (locText l)) v (depth + 1)).2.1
                (mergeDedup acc (parse_sitemap w (.url (locText l)) v (depth + 1)).1)
              simp only [dif_pos h2]
              exact visitInv_comp hP hR _
            · simp only [dif_neg h2]
              exact ihl v acc
          · simp only [if_neg h1]
            exact ihl v acc
    have I : ∀ w cs v acc, VisitInv v (indexLoop w cs v depth acc) := by
      intro w cs
      induction cs with
      | nil => intro v acc; rw [indexLoop]; exact visitInv_id v acc
      | cons c rest ihc =>
          intro v acc
          rw [indexLoop]
          by_cases h1 : strip_ns c.tag = "sitemap"
          · simp only [if_pos h1]
            have hA := L w c.children v acc
            have hB := ihc (locLoop w c.children v depth acc).2.1
              (locLoop w c.children v depth acc).1
            exact visitInv_comp hA hB _
          · simp only [if_neg h1]
            exact ihc v acc
    have D : ∀ w root v, VisitInv v (dispatch w root v depth) := by
      intro w root v
      rw [dispatch]
      by_cases h1 : strip_ns root.tag = "sitemapindex"
      · simp only [if_pos h1]
        exact I w root.children v []
      · simp only [if_neg h1]
        by_cases h2 : strip_ns root.tag = "urlset"
        · simp only [if_pos h2]
          exact visitInv_id v _
        · simp only [if_neg h2]
          exact visitInv_id v _
    refine ⟨L, I, D, ?_⟩
    intro w s v
    match s with
    | .bytes none => rw [parse_sitemap]; exact visitInv_id v _
    | .bytes (some root) => rw [parse_sitemap]; exact D w root v
    | .url u =>
        rw [parse_sitemap]
        by_cases hm : pyStrip u ∈ v
        · simp only [if_pos hm]
          exact visitInv_id v _
        · simp only [if_neg hm]
          cases hw : w (pyStrip u) with
          | none =>
              refine ⟨fun x hx => List.mem_cons_of_mem _ hx, by simp, ?_⟩
              intro u2 hu2
              rw [List.mem_singleton.mp hu2]
              exact ⟨hm, List.mem_cons_self _ _⟩
          | some root =>
              obtain ⟨hDa, hDb, hDc⟩ := D w root (pyStrip u :: v)
              refine ⟨?_, ?_, ?_⟩
              · intro x hx
                exact hDa x (List.mem_cons_of_mem _ hx)
              · refine List.Nodup.cons ?_ hDb
                intro hmem
                exact (hDc _ hmem).1 (List.mem_cons_self _ _)
              · intro u2 hu2
                rcases List.mem_cons.mp hu2 with hu2 | hu2
                · subst hu2
                  exact ⟨hm, hDa _ (List.mem_cons_self _ _)⟩
                · refine ⟨fun hv => (hDc u2 hu2).1 (List.mem_cons_of_mem _ hv), (hDc u2 hu2).2⟩

/-! ## Claim theorems for the sitemap resolver -/

/-- Claim C6: for every input tree the resolver's URL list has no duplicates
and lists URLs in first-seen order of the depth-first, document-order
traversal — it equals the first-occurrence dedup of the raw traversal
sequence; in particular, a urlset with three unique locs and one duplicate
resolves to exactly those 3 URLs in document order. -/
theorem claim_C6_dedup_order :
    (∀ (w : String → Option XmlNode) (s : Source) (v : List String) (d : Nat),
        (parse_sitemap w s v d).1.Nodup) ∧
    (∀ (w : String → Option XmlNode) (s : Source) (v : List String) (d : Nat),
        parse_sitemap w s v d = (dedupFirst (rawParse w s v d).1, (rawParse w s v d).2)) ∧
    parse_sitemap (fun _ => none) (Source.bytes (some scenarioA)) [] 0 =
      (["https://e.example/a", "https://e.example/b", "https://e.example/c"], [], []) := by
  have hsim : ∀ (w : String → Option XmlNode) (s : Source) (v : List String) (d : Nat),
      parse_sitemap w s v d = (dedupFirst (rawParse w s v d).1, (rawParse w s v d).2) :=
    fun w s v d => (parse_sim 4 d (by omega)).2.2.2 w s v
  refine ⟨?_, hsim, ?_⟩
  · intro w s v d
    rw [hsim]
    exact mergeDedup_nodup _ [] List.nodup_nil
  · rw [parse_sitemap, dispatch]
    decide

/-- Claim C7: resolution always terminates (the resolver is a total function
of this development; the last conjunct evaluates it on a self-referencing
index) and the recursion never exceeds the depth bound: at any depth ≥ 3 the
child loops resolve nothing and touch neither the visited set nor the
network, and a child URL already in the visited set resolves to nothing
immediately. -/
theorem claim_C7_depth_bound :
    (∀ (w : String → Option XmlNode) (ls : List XmlNode) (v acc : List String) (d : Nat),
        MAX_DEPTH ≤ d → locLoop w ls v d acc = (acc, v, [])) ∧
    (∀ (w : String → Option XmlNode) (cs : List XmlNode) (v acc : List String) (d : Nat),
        MAX_DEPTH ≤ d → indexLoop w cs v d acc = (acc, v, [])) ∧
    (∀ (w : String → Option XmlNode) (u : String) (v : List String) (d : Nat),
        pyStrip u ∈ v → parse_sitemap w (.url u) v d = ([], v, [])) ∧
    parse_sitemap cycWorld (.url "https://a.example/s.xml") [] 0 =
      ([], ["https://a.example/s.xml"], ["https://a.example/s.xml"]) := by
  have hL : ∀ (w : String → Option XmlNode) (ls : List XmlNode) (v acc : List String) (d : Nat),
      MAX_DEPTH ≤ d → locLoop w ls v d acc = (acc, v, []) := by
    intro w ls
    induction ls with
    | nil => intro v acc d hd; rw [locLoop]
    | cons l rest ihl =>
        intro v acc d hd
        rw [locLoop]
        by_cases h1 : strip_ns l.tag = "loc" ∧ textTruthy l = true
        · simp only [if_pos h1]
          have h2 : ¬(d + 1 ≤ MAX_DEPTH ∧ locText l ∉ v) := by
            intro hc
            omega
          simp only [dif_neg h2]
          exact ihl v acc d hd
        · simp only [if_neg h1]
          exact ihl v acc d hd
  refine ⟨hL, ?_, ?_, ?_⟩
  · intro w cs
    induction cs with
    | nil => intro v acc d hd; rw [indexLoop]
    | cons c rest ihc =>
        intro v acc d hd
        rw [indexLoop]
        by_cases h1 : strip_ns c.tag = "sitemap"
        · simp only [if_pos h1, hL w c.children v acc d hd]
          exact ihc v acc d hd
        · simp only [if_neg h1]
          exact ihc v acc d hd
  · intro w u v d hm
    rw [parse_sitemap]
    simp only [if_pos hm]
  · rw [parse_sitemap]
    rw [show pyStrip "https://a.example/s.xml" = "https://a.example/s.xml" from by decide]
    rw [if_neg (by decide : ¬("https://a.example/s.xml" ∈ ([] : List String)))]
    rw [show cycWorld "https://a.example/s.xml" = some cycDoc from rfl]
    dsimp only
    rw [dispatch]
    rw [if_pos (by decide : strip_ns cycDoc.tag = "sitemapindex")]
    rw [show cycDoc.children =
      [XmlNode.mk "sitemap" none [XmlNode.mk "loc" (some "https://a.example/s.xml") []]]
      from rfl]
    rw [indexLoop]
    rw [if_pos (by decide :
      strip_ns (XmlNode.mk "sitemap" none
        [XmlNode.mk "loc" (some "https://a.example/s.xml") []]).tag = "sitemap")]
    rw [show (XmlNode.mk "sitemap" none
        [XmlNode.mk "loc" (some "https://a.example/s.xml") []]).children =
      [XmlNode.mk "loc" (some "https://a.example/s.xml") []] from rfl]
    rw [locLoop]
    rw [if_pos (by decide :
      strip_ns (XmlNode.mk "loc" (some "https://a.example/s.xml") []).tag = "loc" ∧
        textTruthy (XmlNode.mk "loc" (some "https://a.example/s.xml") []) = true)]
    rw [dif_neg (by decide :
      ¬(0 + 1 ≤ MAX_DEPTH ∧
        locText (XmlNode.mk "loc" (some "https://a.example/s.xml") [])
          ∉ ["https://a.example/s.xml"]))]
    rw [show locLoop cycWorld [] ["https://a.example/s.xml"] 0 [] =
      ([], ["https://a.example/s.xml"], []) from by rw [locLoop]]
    dsimp only
    rw [show indexLoop cycWorld [] ["https://a.example/s.xml"] 0 [] =
      ([], ["https://a.example/s.xml"], []) from by rw [indexLoop]]
    rfl

/-- Claim C7 witness: at depth 3 (the bound) the loc loop of the
self-referencing document resolves nothing and performs no fetch. -/
theorem claim_C7_witness :
    locLoop cycWorld (XmlNode.children cycDoc) [] 3 [] = ([], [], []) :=
  claim_C7_depth_bound.1 cycWorld (XmlNode.children cycDoc) [] [] 3 (by decide)

/-- Claim C10: within one resolution run every sitemap URL is fetched at
most once (the fetch-attempt trace has no repeats), every fetched URL was
not yet visited and ends up in the visited set (it is added before the fetch
is attempted), and a URL already in the visited set — e.g. one whose
earlier fetch failed — contributes zero URLs and no further fetch. -/
theorem claim_C10_fetch_once :
    (∀ (w : String → Option XmlNode) (s : Source) (v : List String) (d : Nat),
        (parse_sitemap w s v d).2.2.Nodup ∧
        (∀ u, u ∈ (parse_sitemap w s v d).2.2 →
          u ∉ v ∧ u ∈ (parse_sitemap w s v d).2.1)) ∧
    (∀ (w : String → Option XmlNode) (u : String) (v : List String) (d : Nat),
        pyStrip u ∈ v → parse_sitemap w (.url u) v d = ([], v, [])) := by
  constructor
  · intro w s v d
    obtain ⟨-, h2, h3⟩ := (visited_inv 4 d (by omega)).2.2.2 w s v
    exact ⟨h2, h3⟩
  · intro w u v d hm
    rw [parse_sitemap]
    simp only [if_pos hm]

/-- Claim C10 witness: a URL already recorded in the visited set resolves to
nothing, leaves the visited set unchanged and performs no fetch. -/
theorem claim_C10_witness :
    parse_sitemap cycWorld (.url "https://a.example/s.xml") ["https://a.example/s.xml"] 1 =
      ([], ["https://a.example/s.xml"], []) :=
  claim_C10_fetch_once.2 cycWorld "https://a.example/s.xml" ["https://a.example/s.xml"] 1
    (by decide)

/-- Claim C2 witness: on an oracle whose 200 GET response is an HTML
soft-404 page the flag is set, and the theorem recovers a primary response
satisfying all four conditions. -/
theorem claim_C2_witness :
    ∃ k0 resp, (do_request softNet k0 false).1 = .ok resp ∧
      resp.method = "GET" ∧ resp.status_code = 200 ∧
      detect_soft_404 resp.contentType (takeStr 8000 resp.bodyText) = true :=
  claim_C2_soft404_amended.2.2 softNet "https://example.com/gone" "Chrome macOS (default)"
    false 0 false (by decide)
